import Mathlib

/-!
Shallow embedding of the `patterns.state` package (declarative state-machine binder).

Python classes are modelled by their qualified names (`Cls`), runtime attribute
values by an opaque `Val`, Python dicts by association lists with first-key-wins
lookup and in-place update, and Python sets (where iteration order matters for the
modelled code paths) by duplicate-free lists.  Exceptions are modelled by an
`Except PyErr` result; `PyErr` distinguishes the package's own `StateConfigError`
and `StateError` from the interpreter-level `KeyError` / `AttributeError` that some
code paths actually raise.
-/

/-- Python class identities, modelled by qualified names. -/
abbrev Cls := String

/-- Opaque runtime values (attribute contents, call arguments, method results). -/
abbrev Val := Nat

/-- The errors the embedded code can raise.  `stateError` and `configError` model the
package's `StateError` and `StateConfigError`; `keyError` models a failing Python dict
lookup `m[k]`; `attributeError` models a failing Python attribute access `obj.name`. -/
inductive PyErr where
  | stateError (msg : String)
  | configError (msg : String)
  | keyError (key : Cls)
  | attributeError (attr : String)
deriving DecidableEq

deriving instance DecidableEq for Except

/-- Python dict read `m[k]` as an association-list lookup (`none` models `KeyError`). -/
def dictGet {κ β : Type} [DecidableEq κ] (m : List (κ × β)) (k : κ) : Option β :=
  match m with
  | [] => none
  | (k', v) :: rest => if k' = k then some v else dictGet rest k

/-- Python dict write `m[k] = v`: replaces the value in place if the key is present
(keeping its position, as Python dicts do), otherwise appends the new entry. -/
def dictSet {κ β : Type} [DecidableEq κ] (m : List (κ × β)) (k : κ) (v : β) :
    List (κ × β) :=
  match m with
  | [] => [(k, v)]
  | (k', v') :: rest => if k' = k then (k', v) :: rest else (k', v') :: dictSet rest k v

/-- Python dict merge `\x7b**a, **b\x7d`: `a`'s keys in `a`'s order with `b`'s values taking
precedence on collision, followed by the keys only `b` has, in `b`'s order. -/
def pyDictMerge {κ β : Type} [DecidableEq κ] (a b : List (κ × β)) : List (κ × β) :=
  a.map (fun p => (p.1, (dictGet b p.1).getD p.2))
    ++ b.filter (fun p => (dictGet a p.1).isNone)

/-- Python `set.add` on a duplicate-free list: no-op when present, append otherwise. -/
def setAdd {κ : Type} [DecidableEq κ] (s : List κ) (x : κ) : List κ :=
  if x ∈ s then s else s ++ [x]

/-! ## Runtime data model (`_collectors.py` / `_code_gen.py` delegation runtime) -/

/-- A state instance at run time: its concrete class and its instance attributes. -/
structure StateInstance where
  cls : Cls
  attrs : List (String × Val)
deriving DecidableEq

/-- Python `getattr(state_instance, name)`. -/
def pygetattr (st : StateInstance) (name : String) : Except PyErr Val :=
  match dictGet st.attrs name with
  | none => .error (.attributeError name)
  | some v => .ok v

/-- A host instance as seen by the descriptor-style binder of `_collectors.py`:
its class and the state attributes installed on it (`self.<state_attr_name>`). -/
structure HostInstance where
  cls : Cls
  state_slots : List (String × StateInstance)
deriving DecidableEq

/-- `StateMemberDescriptor` (`_collectors.py`): member name, the name of the host's
state attribute, and the bind-time `implementation_map` (state class to the set of
member names that class implements). -/
structure StateMemberDescriptor where
  state_attr_name : String
  attr_name : String
  implementations : List (Cls × List String)
deriving DecidableEq

/-- `StateMemberDescriptor.__get__`: fetch the held state instance, look up the
member names its class implements, and raise `StateError` when the requested member
is not among them; otherwise forward the attribute read to the state instance. -/
def StateMemberDescriptor.get (d : StateMemberDescriptor) (inst : HostInstance)
    (owner : Cls) : Except PyErr Val :=
  match dictGet inst.state_slots d.state_attr_name with
  | none => .error (.attributeError d.state_attr_name)
  | some state_instance =>
    match dictGet d.implementations state_instance.cls with
    | none => .error (.keyError state_instance.cls)
    | some implemented_members =>
      if d.attr_name ∉ implemented_members then
        .error (.stateError ("Member " ++ d.attr_name ++ " is not available on class "
          ++ owner ++ " in state " ++ state_instance.cls ++ "."))
      else pygetattr state_instance d.attr_name

/-- `StateTransitionWrapper.__call__` (`_collectors.py`): invoke the (already fetched)
transition callable and assign the returned instance to the host's state attribute in a
single assignment; the call itself returns `None`. -/
def StateTransitionWrapper.call (state_attr_name : String)
    (transition : List Val → StateInstance) (inst : HostInstance)
    (args : List Val) : HostInstance × Option Val :=
  ({ inst with
      state_slots := dictSet inst.state_slots state_attr_name (transition args) },
    none)

/-- A host instance as produced by the code-generating binder of `_code_gen.py` /
`_add.py`: its class, its own fields set by the original `__init__`, and the single
held state instance `self._state`. -/
structure Host where
  cls : Cls
  fields : List (String × Val)
  _state : StateInstance
deriving DecidableEq

/-- The `state` property installed by `AddState._add_state_property`: returns
`self._state` (it has no setter). -/
def Host.state (self : Host) : StateInstance := self._state

/-- Runtime behaviour of the member wrapper generated by
`StateMemberWrapperGenerator._get_body_lines` (`_code_gen.py`): if the member name is
not in the member set stored on the current state's class
(`settings.STATE_CLS_MEMBER_SET_KEY`), raise `StateError` with a message naming the
host class, the current state class and the member; otherwise read the member from
the held state instance. -/
def wrapped_member_get (member_name : String) (member_set_of : Cls → List String)
    (self : Host) : Except PyErr Val :=
  if member_name ∉ member_set_of self._state.cls then
    .error (.stateError (self.cls ++ " object in state " ++ self._state.cls
      ++ " does not support calling " ++ member_name ++ "."))
  else pygetattr self._state member_name

/-- Runtime behaviour of the transition wrapper generated by
`StateTransitionWrapperGenerator` (`_code_gen.py`): same capability check, then
`new_state = self._state.<name>(...)`, `self._state = new_state`, `return None`.
`fn` is the current state instance's transition method. -/
def wrapped_transition_call (member_name : String) (member_set_of : Cls → List String)
    (fn : StateInstance → List Val → StateInstance) (self : Host)
    (args : List Val) : Except PyErr (Host × Option Val) :=
  if member_name ∉ member_set_of self._state.cls then
    .error (.stateError (self.cls ++ " object in state " ++ self._state.cls
      ++ " does not support calling " ++ member_name ++ "."))
  else
    let new_state := fn self._state args
    .ok ({ self with _state := new_state }, none)

/-- Python class instantiation `C(args)`: yields an instance of exactly class `C`,
with instance attributes determined by the class's `__init__`. -/
def pyConstruct (init_fields : Cls → List Val → List (String × Val)) (c : Cls)
    (args : List Val) : StateInstance :=
  ⟨c, init_fields c args⟩

/-! ## Declaration model and resolver (`_structs.py` / `_resolver.py`) -/

/-- `InternalItemState` (`_structs.py`). -/
inductive InternalItemState where
  | matched
  | resolved
deriving DecidableEq

/-- `StateTransition` (`_structs.py`) at resolver level: the underlying function
object (by identity), the validated destination `transitions_to`, and the function's
return annotation as `inspect` reports it (`none` models `Signature.empty`). -/
structure RTransition where
  func : Nat
  transitions_to : Cls
  ret_anno : Option Cls
deriving DecidableEq

/-- `StateItem` (`_structs.py`): one matched declaration.  Members are maps from
member name to the implementation's identity; `mro` is `cls.mro()` (the class itself
first, `object` last); `init_is_object` records whether `cls.__init__` is
`object.__init__`, and `init_param_count` the parameter count of `cls.__init__`
(including `self`). -/
structure StateItem where
  cls : Cls
  initial : Bool
  abstract : Bool
  mro : List Cls
  init_is_object : Bool
  init_param_count : Nat
  attributes : List (String × Nat)
  properties : List (String × Nat)
  methods : List (String × Nat)
  transitions : List (String × RTransition)
  internal_state : InternalItemState
deriving DecidableEq

/-- `StateItem.inherit_from_state` (`_structs.py`): keep the item's own class and
flags, merge each member map as `\x7b**other.<map>, **self.<map>\x7d` (the derived item's
entries win on name collision), and mark the result resolved. -/
def inherit_from_state (self other : StateItem) : StateItem :=
  { self with
    attributes := pyDictMerge other.attributes self.attributes,
    methods := pyDictMerge other.methods self.methods,
    properties := pyDictMerge other.properties self.properties,
    transitions := pyDictMerge other.transitions self.transitions,
    internal_state := .resolved }

/-- The mutable `state_item_by_cls` mapping of the resolver. -/
abbrev ItemMap := List (Cls × StateItem)

/-- The inner loop of `StateRegistryResolver.resolve_item_inheritance` over
`state_item.cls.mro()` reversed: skip bases that are not registered or whose class is
already in the global `resolved_classes` set; otherwise merge the base's current item
into the accumulating item, record the accumulating item's class as resolved, and
store the accumulating item back into the map. -/
def inherit_pass (map : ItemMap) (resolved_classes : List Cls)
    (state_item : StateItem) : List Cls → ItemMap × List Cls
  | [] => (map, resolved_classes)
  | base :: rest =>
    match dictGet map base with
    | none => inherit_pass map resolved_classes state_item rest
    | some state_item_for_base =>
      if base ∈ resolved_classes then
        inherit_pass map resolved_classes state_item rest
      else
        let item' := inherit_from_state state_item state_item_for_base
        inherit_pass (dictSet map item'.cls item') (setAdd resolved_classes item'.cls)
          item' rest

/-- `StateRegistryResolver.resolve_item_inheritance`: build `state_item_by_cls` from
the matched items, run the inner loop for every matched item in list order with one
global `resolved_classes` set, and return the map's values. -/
def resolve_item_inheritance (matched_state_items : List StateItem) : List StateItem :=
  let state_item_by_cls : ItemMap :=
    matched_state_items.foldl (fun m s => dictSet m s.cls s) []
  let final := matched_state_items.foldl
    (fun (acc : ItemMap × List Cls) item =>
      inherit_pass acc.1 acc.2 item item.mro.reverse)
    (state_item_by_cls, [])
  final.1.map Prod.snd

/-- `StateRegistryResolver.validate_initial` (`_resolver.py`): error when no or several
declarations are marked initial, when the unique initial declaration is abstract, and
also (a case beyond the spec sentence on initial uniqueness) when the initial class's
`__init__` is a custom one taking parameters besides `self`; otherwise return the
unique initial declaration. -/
def validate_initial (state_items : List StateItem) : Except PyErr StateItem :=
  let initials := state_items.filter (fun s => s.initial)
  match initials with
  | [] =>
    .error (.configError "There must be exactly one initial state, but none was declared.")
  | initial :: rest =>
    if rest ≠ [] then
      .error (.configError "There must be exactly one initial state, but multiple were declared.")
    else if initial.abstract then
      .error (.configError "Declared initial state must not be abstract.")
    else if initial.init_is_object = false ∧ 1 < initial.init_param_count then
      .error (.configError "init of initial state cannot have additional arguments apart from self.")
    else .ok initial

/-- The body of the inner `for` loop of
`StateRegistryResolver.validate_state_transition_map` over the popped item's
transitions: each destination class is looked up in `state_items_by_cls` with a bare
dict access (so a destination that is not a concrete declaration raises `KeyError`),
and the looked-up item is appended to the queue when its class is not yet in
`reachable_state_classes`. -/
def process_transitions (state_items_by_cls : ItemMap)
    (reachable_state_classes : List Cls) :
    List (String × RTransition) → Except PyErr (List StateItem)
  | [] => .ok []
  | (_, state_transition) :: rest =>
    match dictGet state_items_by_cls state_transition.transitions_to with
    | none => .error (.keyError state_transition.transitions_to)
    | some state =>
      match process_transitions state_items_by_cls reachable_state_classes rest with
      | .error e => .error e
      | .ok appends =>
        .ok (if state_transition.transitions_to ∈ reachable_state_classes then appends
          else state :: appends)

theorem dictGet_mem_pair {κ β : Type} [DecidableEq κ] {m : List (κ × β)} {k : κ}
    {v : β} (h : dictGet m k = some v) : (k, v) ∈ m := by
  induction m with
  | nil => simp [dictGet] at h
  | cons p rest ih =>
    obtain ⟨k', v'⟩ := p
    by_cases hk : k' = k
    · subst hk
      simp [dictGet] at h
      simp [h]
    · simp [dictGet, hk] at h
      exact List.mem_cons_of_mem _ (ih h)

theorem setAdd_of_mem {κ : Type} [DecidableEq κ] {s : List κ} {x : κ} (h : x ∈ s) :
    setAdd s x = s := by
  simp [setAdd, h]

theorem mem_setAdd {κ : Type} [DecidableEq κ] {s : List κ} {x y : κ} :
    y ∈ setAdd s x ↔ y ∈ s ∨ y = x := by
  by_cases h : x ∈ s
  · simp only [setAdd, if_pos h]
    constructor
    · exact Or.inl
    · rintro (hy | rfl)
      · exact hy
      · exact h
  · simp [setAdd, if_neg h]

theorem process_transitions_ok {m : ItemMap} {visited : List Cls}
    {ts : List (String × RTransition)} {appends : List StateItem}
    (hm : ∀ p ∈ m, (Prod.snd p).cls = p.1)
    (h : process_transitions m visited ts = .ok appends) :
    ∀ a ∈ appends, a ∈ m.map Prod.snd ∧ a.cls ∉ visited := by
  induction ts generalizing appends with
  | nil =>
    simp [process_transitions] at h
    subst h
    simp
  | cons t rest ih =>
    rw [process_transitions] at h
    cases hg : dictGet m t.2.transitions_to with
    | none => rw [hg] at h; exact absurd h (by simp)
    | some state =>
      rw [hg] at h
      cases hr : process_transitions m visited rest with
      | error e => rw [hr] at h; simp [hr] at h
      | ok appends' =>
        rw [hr] at h
        simp only [] at h
        have hstate_mem : state ∈ m.map Prod.snd := by
          exact List.mem_map_of_mem Prod.snd (dictGet_mem_pair hg)
        have hstate_cls : state.cls = t.2.transitions_to :=
          hm _ (dictGet_mem_pair hg)
        by_cases hin : t.2.transitions_to ∈ visited
        · rw [if_pos hin] at h
          cases h
          exact ih hr
        · rw [if_neg hin] at h
          cases h
          intro a ha
          rcases List.mem_cons.mp ha with rfl | ha'
          · exact ⟨hstate_mem, by rw [hstate_cls]; exact hin⟩
          · exact ih hr a ha'

/-- First component of the termination measure of the BFS `while` loop: the number of
distinct classes occurring in the item map or the queue that are not yet visited. -/
def unvisited_count (items queue : List StateItem) (visited : List Cls) : Nat :=
  (((items ++ queue).map StateItem.cls).toFinset.filter (fun c => c ∉ visited)).card

/-- Second component of the termination measure: index of the first queue entry whose
class is not yet visited (queue length when there is none). -/
def first_unvisited (queue : List StateItem) (visited : List Cls) : Nat :=
  queue.findIdx (fun i => decide (i.cls ∉ visited))

theorem unvisited_count_le {items : List StateItem} {state_item : StateItem}
    {rest appends : List StateItem} {visited : List Cls}
    (happ : ∀ a ∈ appends, a ∈ items) :
    unvisited_count items (rest ++ appends) (setAdd visited state_item.cls)
      ≤ unvisited_count items (state_item :: rest) visited := by
  apply Finset.card_le_card
  intro c hc
  simp only [Finset.mem_filter, List.mem_toFinset, List.mem_map, List.mem_append,
    List.mem_cons] at hc ⊢
  obtain ⟨⟨a, ha, rfl⟩, hnv⟩ := hc
  constructor
  · rcases ha with ha | ha | ha
    · exact ⟨a, Or.inl ha, rfl⟩
    · exact ⟨a, Or.inr (Or.inr ha), rfl⟩
    · exact ⟨a, Or.inl (happ a ha), rfl⟩
  · intro hv
    exact hnv (mem_setAdd.mpr (Or.inl hv))

theorem unvisited_count_lt {items : List StateItem} {state_item : StateItem}
    {rest appends : List StateItem} {visited : List Cls}
    (hitem : state_item.cls ∉ visited)
    (happ : ∀ a ∈ appends, a ∈ items) :
    unvisited_count items (rest ++ appends) (setAdd visited state_item.cls)
      < unvisited_count items (state_item :: rest) visited := by
  have hsub : (((items ++ (rest ++ appends)).map StateItem.cls).toFinset.filter
      (fun c => c ∉ setAdd visited state_item.cls))
      ⊆ (((items ++ state_item :: rest).map StateItem.cls).toFinset.filter
        (fun c => c ∉ visited)).erase state_item.cls := by
    intro c hc
    simp only [Finset.mem_filter, Finset.mem_erase, List.mem_toFinset, List.mem_map,
      List.mem_append, List.mem_cons] at hc ⊢
    obtain ⟨⟨a, ha, rfl⟩, hnv⟩ := hc
    refine ⟨fun hcls => hnv (mem_setAdd.mpr (Or.inr hcls)), ?_, fun hv => hnv (mem_setAdd.mpr (Or.inl hv))⟩
    rcases ha with ha | ha | ha
    · exact ⟨a, Or.inl ha, rfl⟩
    · exact ⟨a, Or.inr (Or.inr ha), rfl⟩
    · exact ⟨a, Or.inl (happ a ha), rfl⟩
  have hmem : state_item.cls ∈ ((items ++ state_item :: rest).map StateItem.cls).toFinset.filter
      (fun c => c ∉ visited) := by
    simp only [Finset.mem_filter, List.mem_toFinset, List.mem_map, List.mem_append,
      List.mem_cons]
    exact ⟨⟨state_item, Or.inr (Or.inl rfl), rfl⟩, hitem⟩
  calc (((items ++ (rest ++ appends)).map StateItem.cls).toFinset.filter
      (fun c => c ∉ setAdd visited state_item.cls)).card
      ≤ ((((items ++ state_item :: rest).map StateItem.cls).toFinset.filter
        (fun c => c ∉ visited)).erase state_item.cls).card := Finset.card_le_card hsub
    _ < (((items ++ state_item :: rest).map StateItem.cls).toFinset.filter
        (fun c => c ∉ visited)).card := Finset.card_erase_lt_of_mem hmem

theorem findIdx_append_all {α : Type} {p : α → Bool} {A : List α}
    (hA : ∀ a ∈ A, p a = true) (l : List α) : (l ++ A).findIdx p ≤ l.findIdx p := by
  induction l with
  | nil =>
    cases A with
    | nil => simp
    | cons a A' => simp [List.findIdx_cons, hA a (by simp)]
  | cons b l ih =>
    by_cases hb : p b
    · simp [List.findIdx_cons, hb]
    · simp only [List.cons_append, List.findIdx_cons, Bool.cond_eq_if, if_neg hb]
      exact Nat.succ_le_succ ih

theorem first_unvisited_lt {state_item : StateItem} {rest appends : List StateItem}
    {visited : List Cls} (hmem : state_item.cls ∈ visited)
    (happ : ∀ a ∈ appends, a.cls ∉ visited) :
    first_unvisited (rest ++ appends) visited
      < first_unvisited (state_item :: rest) visited := by
  unfold first_unvisited
  have h1 : (rest ++ appends).findIdx (fun i => decide (i.cls ∉ visited))
      ≤ rest.findIdx (fun i => decide (i.cls ∉ visited)) :=
    findIdx_append_all (fun a ha => by simp [happ a ha]) rest
  rw [List.findIdx_cons]
  have h2 : decide (state_item.cls ∉ visited) = false := by simp [hmem]
  rw [h2]
  simp only [cond_false]
  omega

/-- The `while queue:` loop of `StateRegistryResolver.validate_state_transition_map`:
pop the front item, add its class to `reachable_state_classes`, look up every
transition destination in `state_items_by_cls` (bare dict access), append the
destinations not yet reachable, and loop.  `hm` records that every map entry's key is
its item's class, which is how `state_items_by_cls` is built; the loop need not
terminate without it. -/
def bfs_loop (m : ItemMap) (hm : ∀ p ∈ m, (Prod.snd p).cls = p.1)
    (queue : List StateItem) (visited : List Cls) : Except PyErr (List Cls) :=
  match queue with
  | [] => .ok visited
  | state_item :: rest =>
    match hpt : process_transitions m (setAdd visited state_item.cls)
        state_item.transitions with
    | .error e => .error e
    | .ok appends => bfs_loop m hm (rest ++ appends) (setAdd visited state_item.cls)
termination_by (unvisited_count (m.map Prod.snd) queue visited,
  first_unvisited queue visited)
decreasing_by
  have happ := process_transitions_ok hm hpt
  by_cases hv : initial.cls ∈ visited
  · have hA : ∀ a ∈ appends, a.cls ∉ visited := by
      intro a ha
      have h2 := (happ a ha).2
      rw [setAdd_of_mem hv] at h2
      exact h2
    have hle : unvisited_count (List.map Prod.snd m) (rest ++ appends)
        (setAdd visited initial.cls)
        ≤ unvisited_count (List.map Prod.snd m) (initial :: rest) visited :=
      unvisited_count_le (fun a ha => (happ a ha).1)
    rcases lt_or_eq_of_le hle with hlt | heq
    · exact Prod.Lex.left _ _ hlt
    · rw [heq, setAdd_of_mem hv]
      exact Prod.Lex.right _ (first_unvisited_lt hv hA)
  · exact Prod.Lex.left _ _ (unvisited_count_lt hv (fun a ha => (happ a ha).1))

theorem dictSet_cls_consistent {m : ItemMap} {s : StateItem}
    (hm : ∀ p ∈ m, (Prod.snd p).cls = p.1) :
    ∀ p ∈ dictSet m s.cls s, (Prod.snd p).cls = p.1 := by
  induction m with
  | nil =>
    intro p hp
    simp [dictSet] at hp
    simp [hp]
  | cons q rest ih =>
    obtain ⟨k', v'⟩ := q
    intro p hp
    by_cases hk : k' = s.cls
    · rw [dictSet, if_pos hk] at hp
      rcases List.mem_cons.mp hp with rfl | hp'
      · simpa using hk.symm
      · exact hm p (List.mem_cons_of_mem _ hp')
    · rw [dictSet, if_neg hk] at hp
      rcases List.mem_cons.mp hp with rfl | hp'
      · exact hm _ (List.mem_cons_self _ _)
      · exact ih (fun q hq => hm q (List.mem_cons_of_mem _ hq)) p hp'

theorem foldl_dictSet_cls_consistent (l : List StateItem) (m0 : ItemMap)
    (hm0 : ∀ p ∈ m0, (Prod.snd p).cls = p.1) :
    ∀ p ∈ l.foldl (fun m s => dictSet m s.cls s) m0, (Prod.snd p).cls = p.1 := by
  induction l generalizing m0 with
  | nil => exact hm0
  | cons s rest ih => exact ih _ (dictSet_cls_consistent hm0)

/-- `StateDefinition` (`_structs.py`): the resolved artifact, the initial item plus
all concrete items (with the initial one moved to the front by
`StateRegistryResolver.resolve`). -/
structure StateDefinition where
  initial : StateItem
  concretes : List StateItem
deriving DecidableEq

/-- `StateRegistryResolver.validate_state_transition_map`: build `state_items_by_cls`
from the concrete items, run the BFS from the initial item, and complain about the
concrete classes the traversal did not visit.  Two interpreter-level error outcomes
are modelled faithfully: a transition destination that is not a key of
`state_items_by_cls` raises `KeyError` inside the loop (bare `state_items_by_cls[...]`
access), and the unreachable-states branch evaluates `[st.cls for st in
unreachable_states]` inside the f-string even though `unreachable_states` already
holds the class objects themselves (the keys of the dict), so for ordinary state
classes (which have no attribute named `cls`) Python raises `AttributeError` before
the `StateConfigError` is ever constructed; that outcome is modelled as
`.attributeError "cls"`.  `state_items_by_cls_of` is the
`state_items_by_cls = \x7bstate.cls: state for state in state_definition.concretes\x7d`
dict built at the top of the function. -/
def state_items_by_cls_of (state_definition : StateDefinition) : ItemMap :=
  state_definition.concretes.foldl (fun m s => dictSet m s.cls s) []

theorem state_items_by_cls_of_consistent (state_definition : StateDefinition) :
    ∀ p ∈ state_items_by_cls_of state_definition, (Prod.snd p).cls = p.1 :=
  foldl_dictSet_cls_consistent _ [] (by intro p hp; simp at hp)

/-- The rest of `StateRegistryResolver.validate_state_transition_map`: run the BFS
from the initial item and fail on the concrete classes the traversal did not visit
(see the modelling notes on `state_items_by_cls_of`). -/
def validate_state_transition_map (state_definition : StateDefinition) :
    Except PyErr Unit :=
  match bfs_loop (state_items_by_cls_of state_definition)
      (state_items_by_cls_of_consistent state_definition)
      [state_definition.initial] [] with
  | .error e => .error e
  | .ok reachable_state_classes =>
    if ((state_items_by_cls_of state_definition).map Prod.fst).filter
        (fun c => c ∉ reachable_state_classes) = [] then .ok ()
    else .error (.attributeError "cls")

/-- The return-annotation validation of `StateRegistryResolver.get_transitions`: a
transition whose function carries a return annotation different from its `to`
argument is a `StateConfigError`. -/
def check_transition_ret_anno (t : RTransition) : Except PyErr Unit :=
  match t.ret_anno with
  | none => .ok ()
  | some anno =>
    if anno = t.transitions_to then .ok ()
    else .error (.configError "State-transition does not define same as return-annotation and for to parameter.")

/-! ## Registry surface (`api.py`) -/

/-- `StateMethod` (`_structs.py`) as registered: the function object by identity. -/
structure StateMethod where
  func : Nat
deriving DecidableEq

/-- `StateProperty` (`_structs.py`) as registered. -/
structure StateProperty where
  func : Nat
deriving DecidableEq

/-- `StateTransition` (`_structs.py`) as registered by `StateRegistry.transition`:
the function and the raw `to` argument (a forward reference resolved later). -/
structure StateTransitionReg where
  func : Nat
  transitions_to : Cls
deriving DecidableEq

/-- `MemberStateItem` (`_structs.py`). -/
structure MemberStateItem where
  properties : List (String × StateProperty) := []
  methods : List (String × StateMethod) := []
  transitions : List (String × StateTransitionReg) := []
deriving DecidableEq

/-- `ClassStateItem` (`_structs.py`): the class (by name), the `initial` and
`abstract` flags, and the declared attribute names. -/
structure ClassStateItem where
  cls : Cls
  initial : Bool
  abstract : Bool
  attributes : List String
deriving DecidableEq

/-- Registry keys are `(module, class name)` pairs. -/
abbrev RegistryKey := String × String

/-- `StateRegistry` (`api.py`): the resolved flag and the two collections. -/
structure StateRegistry where
  is_resolved : Bool := false
  member_registry : List (RegistryKey × MemberStateItem) := []
  registry : List (RegistryKey × ClassStateItem) := []
deriving DecidableEq

/-- `StateRegistry._check_is_unresolved`: raise `StateConfigError` when the registry
was already resolved. -/
def check_is_unresolved (self : StateRegistry) : Except PyErr Unit :=
  if self.is_resolved then
    .error (.configError "StateRegistry object was resolved and cannot be used anymore to register states or add them.")
  else .ok ()

/-- `StateRegistry.register`: after the resolved check, store a `ClassStateItem`
under the class's `(module, name)` key with a plain dict write - an identity that is
already registered is silently overwritten, no duplicate check is made.  The result
pairs the call's outcome with the registry state afterwards. -/
def StateRegistry.register (self : StateRegistry) (module cls_name : String)
    (initial abstract : Bool) (attributes : List String) :
    Except PyErr Unit × StateRegistry :=
  match check_is_unresolved self with
  | .error e => (.error e, self)
  | .ok _ =>
    let item := ClassStateItem.mk cls_name initial abstract attributes
    (.ok (), { self with registry := dictSet self.registry (module, cls_name) item })

/-- `StateRegistry._get_member_state_item`: fetch the member item for the key,
inserting an empty one when absent. -/
def get_member_state_item (self : StateRegistry) (key : RegistryKey) :
    MemberStateItem :=
  (dictGet self.member_registry key).getD {}

/-- `StateRegistry.method`: after the resolved check, record the function under its
`(module, qualname prefix)` key. -/
def StateRegistry.method (self : StateRegistry) (module cls_name func_name : String)
    (func : Nat) : Except PyErr Unit × StateRegistry :=
  match check_is_unresolved self with
  | .error e => (.error e, self)
  | .ok _ =>
    let key : RegistryKey := (module, cls_name)
    let item := get_member_state_item self key
    let item' := { item with methods := dictSet item.methods func_name ⟨func⟩ }
    (.ok (), { self with member_registry := dictSet self.member_registry key item' })

/-- `StateRegistry.property_`: like `method`, for properties. -/
def StateRegistry.property_ (self : StateRegistry)
    (module cls_name func_name : String) (func : Nat) :
    Except PyErr Unit × StateRegistry :=
  match check_is_unresolved self with
  | .error e => (.error e, self)
  | .ok _ =>
    let key : RegistryKey := (module, cls_name)
    let item := get_member_state_item self key
    let item' := { item with properties := dictSet item.properties func_name ⟨func⟩ }
    (.ok (), { self with member_registry := dictSet self.member_registry key item' })

/-- `StateRegistry.transition`: like `method`, for transitions, additionally keeping
the raw `to` destination. -/
def StateRegistry.transition (self : StateRegistry)
    (module cls_name func_name : String) (func : Nat) (to_cls : Cls) :
    Except PyErr Unit × StateRegistry :=
  match check_is_unresolved self with
  | .error e => (.error e, self)
  | .ok _ =>
    let key : RegistryKey := (module, cls_name)
    let item := get_member_state_item self key
    let item' := { item with
      transitions := dictSet item.transitions func_name ⟨func, to_cls⟩ }
    (.ok (), { self with member_registry := dictSet self.member_registry key item' })

/-- `StateRegistry.resolved` property. -/
def StateRegistry.resolved (self : StateRegistry) : Bool := self.is_resolved

/-- `StateRegistry.resolve`: mark the registry resolved (the returned mapping proxies
are read-only views of the two collections). -/
def StateRegistry.resolve (self : StateRegistry) : StateRegistry :=
  { self with is_resolved := true }

/-- `add_state` applied to a class: the decorator raises `StateConfigError` when the
given registry is already resolved, and otherwise resolves it (marking it resolved)
before running the resolver/binder pipeline on the two collections. -/
def add_state (state : StateRegistry) : Except PyErr Unit × StateRegistry :=
  if state.resolved then
    (.error (.configError "Given StateRegistry is already resolved."), state)
  else (.ok (), state.resolve)

/-! ## Descriptor-style collector (`_collectors.py` declaration side) -/

/-- A definition member as collected by `StateCollector` (`_collectors.py`): its name
and the state-implementation classes that were recorded as implementing it. -/
structure DefStateMember where
  name : String
  implementations : List Cls
deriving DecidableEq

/-- `StateHolderDefinitionResolver.validate_all_members_implemented`: the members
with no implementation at all; any such member is a `StateConfigError`. -/
def validate_all_members_implemented (definition_members : List DefStateMember) :
    Except PyErr Unit :=
  let unimplemented_members :=
    definition_members.filter (fun member => member.implementations = [])
  if unimplemented_members ≠ [] then
    .error (.configError "The following members are not implemented in any of the definition bases. Either delete or implement them.")
  else .ok ()

/-- `create_wrapped_state_init` (`_code_gen.py`) as installed by
`AddState._add_state_property` (`_add.py`): the generated `__init__` first calls the
host class's original `__init__` with the caller's arguments and then runs
`self._state = default_state_cls()`, where `default_state_cls` is the resolved
definition's initial state class, called with no arguments. -/
def wrapped_state_init (state_definition : StateDefinition)
    (init_fields : Cls → List Val → List (String × Val)) (host_cls : Cls)
    (current_init : List Val → List (String × Val)) (args : List Val) : Host :=
  { cls := host_cls,
    fields := current_init args,
    _state := pyConstruct init_fields state_definition.initial.cls [] }

theorem dictGet_dictSet_self {κ β : Type} [DecidableEq κ] (m : List (κ × β)) (k : κ)
    (v : β) : dictGet (dictSet m k v) k = some v := by
  induction m with
  | nil => simp [dictSet, dictGet]
  | cons p rest ih =>
    obtain ⟨k', v'⟩ := p
    by_cases hk : k' = k
    · simp [dictSet, dictGet, hk]
    · simp [dictSet, dictGet, hk, ih]

theorem bfs_loop_nil {m : ItemMap} {hm : ∀ p ∈ m, (Prod.snd p).cls = p.1}
    {visited : List Cls} : bfs_loop m hm [] visited = .ok visited := by
  rw [bfs_loop]

theorem bfs_loop_cons_error {m : ItemMap} {hm : ∀ p ∈ m, (Prod.snd p).cls = p.1}
    {state_item : StateItem} {rest : List StateItem} {visited : List Cls} {e : PyErr}
    (h : process_transitions m (setAdd visited state_item.cls) state_item.transitions
      = .error e) :
    bfs_loop m hm (state_item :: rest) visited = .error e := by
  rw [bfs_loop]
  split <;> simp_all

theorem bfs_loop_cons_ok {m : ItemMap} {hm : ∀ p ∈ m, (Prod.snd p).cls = p.1}
    {state_item : StateItem} {rest appends : List StateItem} {visited : List Cls}
    (h : process_transitions m (setAdd visited state_item.cls) state_item.transitions
      = .ok appends) :
    bfs_loop m hm (state_item :: rest) visited
      = bfs_loop m hm (rest ++ appends) (setAdd visited state_item.cls) := by
  rw [bfs_loop]
  split <;> simp_all

theorem process_transitions_error_of_missing {m : ItemMap} {visited : List Cls}
    {ts : List (String × RTransition)}
    (hmiss : ∃ p ∈ ts, dictGet m (Prod.snd p).transitions_to = none) :
    ∃ k, process_transitions m visited ts = .error (.keyError k)
      ∧ dictGet m k = none := by
  induction ts with
  | nil => simp at hmiss
  | cons t rest ih =>
    rcases hmiss with ⟨p, hp, hnone⟩
    rcases List.mem_cons.mp hp with rfl | hp'
    · refine ⟨p.2.transitions_to, ?_, hnone⟩
      rw [process_transitions, hnone]
    · cases hg : dictGet m t.2.transitions_to with
      | none =>
        refine ⟨t.2.transitions_to, ?_, hg⟩
        rw [process_transitions, hg]
      | some state =>
        obtain ⟨k, hk, hkn⟩ := ih ⟨p, hp', hnone⟩
        refine ⟨k, ?_, hkn⟩
        rw [process_transitions, hg, hk]

theorem dictGet_append_right {κ β : Type} [DecidableEq κ] {a : List (κ × β)}
    (b : List (κ × β)) {k : κ} (h : dictGet a k = none) :
    dictGet (a ++ b) k = dictGet b k := by
  induction a with
  | nil => rfl
  | cons p rest ih =>
    obtain ⟨k', v'⟩ := p
    by_cases hk : k' = k
    · rw [dictGet, if_pos hk] at h
      cases h
    · rw [dictGet, if_neg hk] at h
      rw [List.cons_append, dictGet, if_neg hk]
      exact ih h

theorem dictSet_fresh {κ β : Type} [DecidableEq κ] {m : List (κ × β)} {k : κ}
    (v : β) (h : dictGet m k = none) : dictSet m k v = m ++ [(k, v)] := by
  induction m with
  | nil => rfl
  | cons p rest ih =>
    obtain ⟨k', v'⟩ := p
    by_cases hk : k' = k
    · rw [dictGet, if_pos hk] at h
      cases h
    · rw [dictGet, if_neg hk] at h
      rw [dictSet, if_neg hk, List.cons_append, ih h]

theorem foldl_dictSet_eq_append (l : List StateItem) :
    ∀ acc : ItemMap, (∀ s ∈ l, dictGet acc s.cls = none) →
      (l.map StateItem.cls).Nodup →
      l.foldl (fun m s => dictSet m s.cls s) acc
        = acc ++ l.map (fun s => (s.cls, s)) := by
  induction l with
  | nil =>
    intro acc _ _
    simp
  | cons s rest ih =>
    intro acc hfresh hnd
    rw [List.map_cons, List.nodup_cons] at hnd
    rw [List.foldl_cons, dictSet_fresh s (hfresh s (by simp)),
      ih (acc ++ [(s.cls, s)]) ?_ hnd.2]
    · simp
    · intro t ht
      rw [dictGet_append_right _ (hfresh t (by simp [ht]))]
      have hne : s.cls ≠ t.cls := by
        intro hc
        exact hnd.1 (by rw [hc]; exact List.mem_map_of_mem _ ht)
      simp [dictGet, hne]

/-- Under the class-uniqueness that holds by construction of the resolver's matched
items, `state_items_by_cls` is just the concretes listed by their classes. -/
theorem state_items_by_cls_of_eq {state_definition : StateDefinition}
    (hnd : (state_definition.concretes.map StateItem.cls).Nodup) :
    state_items_by_cls_of state_definition
      = state_definition.concretes.map (fun s => (s.cls, s)) := by
  unfold state_items_by_cls_of
  rw [foldl_dictSet_eq_append _ [] (fun s _ => rfl) hnd]
  simp

theorem dictGet_map_self {l : List StateItem} {c : StateItem} (hc : c ∈ l)
    (hnd : (l.map StateItem.cls).Nodup) :
    dictGet (l.map (fun s => (s.cls, s))) c.cls = some c := by
  induction l with
  | nil => cases hc
  | cons s rest ih =>
    rw [List.map_cons, List.nodup_cons] at hnd
    rcases List.mem_cons.mp hc with rfl | hc'
    · simp [dictGet]
    · rw [List.map_cons, dictGet]
      by_cases hk : s.cls = c.cls
      · exact absurd (by rw [hk]; exact List.mem_map_of_mem _ hc') hnd.1
      · rw [if_neg hk]
        exact ih hc' hnd.2

theorem state_items_lookup_self {state_definition : StateDefinition} {c : StateItem}
    (hnd : (state_definition.concretes.map StateItem.cls).Nodup)
    (hc : c ∈ state_definition.concretes) :
    dictGet (state_items_by_cls_of state_definition) c.cls = some c := by
  rw [state_items_by_cls_of_eq hnd]
  exact dictGet_map_self hc hnd

theorem nodup_cls_inj {l : List StateItem} (hnd : (l.map StateItem.cls).Nodup)
    {a b : StateItem} (ha : a ∈ l) (hb : b ∈ l) (hcls : a.cls = b.cls) : a = b := by
  induction l with
  | nil => cases ha
  | cons s rest ih =>
    rw [List.map_cons, List.nodup_cons] at hnd
    rcases List.mem_cons.mp ha with rfl | ha' <;>
      rcases List.mem_cons.mp hb with rfl | hb'
    · rfl
    · exact absurd (by rw [hcls]; exact List.mem_map_of_mem _ hb') hnd.1
    · exact absurd (by rw [← hcls]; exact List.mem_map_of_mem _ ha') hnd.1
    · exact ih hnd.2 ha' hb'

/-- Every error of the destination-lookup loop is a `KeyError` at a key absent from
the item map (the loop raises nothing else). -/
theorem process_transitions_error_shape {m : ItemMap} {visited : List Cls}
    {ts : List (String × RTransition)} {e : PyErr}
    (h : process_transitions m visited ts = .error e) :
    ∃ k, e = .keyError k ∧ dictGet m k = none := by
  induction ts generalizing e with
  | nil =>
    rw [process_transitions] at h
    exact absurd h (by simp)
  | cons t rest ih =>
    rw [process_transitions] at h
    cases hg : dictGet m t.2.transitions_to with
    | none =>
      rw [hg] at h
      simp only [] at h
      injection h with h2
      exact ⟨t.2.transitions_to, h2.symm, hg⟩
    | some state =>
      rw [hg] at h
      cases hr : process_transitions m visited rest with
      | error e2 =>
        rw [hr] at h
        simp only [] at h
        injection h with h2
        obtain ⟨k, hk, hkn⟩ := ih hr
        exact ⟨k, by rw [← h2, hk], hkn⟩
      | ok appends =>
        rw [hr] at h
        simp only [] at h
        exact absurd h (by simp)

/-- Every item the destination-lookup loop appends is the item map's value at its
own class. -/
theorem process_transitions_ok_lookup {m : ItemMap} {visited : List Cls}
    {ts : List (String × RTransition)} {appends : List StateItem}
    (hm : ∀ p ∈ m, (Prod.snd p).cls = p.1)
    (h : process_transitions m visited ts = .ok appends) :
    ∀ a ∈ appends, dictGet m a.cls = some a := by
  induction ts generalizing appends with
  | nil =>
    rw [process_transitions] at h
    injection h with h2
    subst h2
    simp
  | cons t rest ih =>
    rw [process_transitions] at h
    cases hg : dictGet m t.2.transitions_to with
    | none =>
      rw [hg] at h
      exact absurd h (by simp)
    | some state =>
      rw [hg] at h
      cases hr : process_transitions m visited rest with
      | error e =>
        rw [hr] at h
        simp [hr] at h
      | ok appends' =>
        rw [hr] at h
        simp only [] at h
        have hcls : state.cls = t.2.transitions_to := hm _ (dictGet_mem_pair hg)
        by_cases hin : t.2.transitions_to ∈ visited
        · rw [if_pos hin] at h
          injection h with h2
          subst h2
          exact ih hr
        · rw [if_neg hin] at h
          injection h with h2
          subst h2
          intro a ha
          rcases List.mem_cons.mp ha with rfl | ha'
          · rw [hcls]
            exact hg
          · exact ih hr a ha'

/-- Every error outcome of the BFS loop is a `KeyError` at a key absent from the
item map. -/
theorem bfs_loop_error_shape {m : ItemMap} {hm : ∀ p ∈ m, (Prod.snd p).cls = p.1} :
    ∀ {queue : List StateItem} {visited : List Cls} {e : PyErr},
      bfs_loop m hm queue visited = .error e →
      ∃ k, e = .keyError k ∧ dictGet m k = none := by
  intro queue visited
  induction queue, visited using bfs_loop.induct m hm with
  | case1 visited =>
    intro e he
    rw [bfs_loop_nil] at he
    exact absurd he (by simp)
  | case2 visited state_item rest e2 hpt =>
    intro e he
    rw [bfs_loop_cons_error hpt] at he
    injection he with h2
    obtain ⟨k, hk, hkn⟩ := process_transitions_error_shape hpt
    exact ⟨k, by rw [← h2, hk], hkn⟩
  | case3 visited state_item rest appends hpt ih =>
    intro e he
    rw [bfs_loop_cons_ok hpt] at he
    exact ih he

/-- If the BFS loop completes without an error, the class of an item carrying a
missing-destination transition is never added to the visited set: popping that item
would make the destination lookups raise.  `hq` says queue entries with the bad
item's class are the bad item itself, which the loop preserves because every append
is the item map's value at its class. -/
theorem bfs_loop_ok_bad_unvisited {m : ItemMap}
    {hm : ∀ p ∈ m, (Prod.snd p).cls = p.1} {bad : StateItem}
    (hbad : dictGet m bad.cls = some bad)
    (hmiss : ∃ p ∈ bad.transitions, dictGet m (Prod.snd p).transitions_to = none) :
    ∀ {queue : List StateItem} {visited final : List Cls},
      bfs_loop m hm queue visited = .ok final →
      (∀ q ∈ queue, q.cls = bad.cls → q = bad) →
      bad.cls ∉ visited → bad.cls ∉ final := by
  intro queue visited
  induction queue, visited using bfs_loop.induct m hm with
  | case1 visited =>
    intro final hfin hq hnv
    rw [bfs_loop_nil] at hfin
    injection hfin with h2
    rw [← h2]
    exact hnv
  | case2 visited state_item rest e hpt =>
    intro final hfin hq hnv
    rw [bfs_loop_cons_error hpt] at hfin
    exact absurd hfin (by simp)
  | case3 visited state_item rest appends hpt ih =>
    intro final hfin hq hnv
    by_cases hcls : state_item.cls = bad.cls
    · exfalso
      have hsb : state_item = bad := hq _ (by simp) hcls
      subst hsb
      obtain ⟨k, hk, hkn⟩ := @process_transitions_error_of_missing m
        (setAdd visited state_item.cls) state_item.transitions hmiss
      rw [hpt] at hk
      exact absurd hk (by simp)
    · rw [bfs_loop_cons_ok hpt] at hfin
      refine ih hfin ?_ ?_
      · intro q hqm hqc
        rcases List.mem_append.mp hqm with hq1 | hq2
        · exact hq q (List.mem_cons_of_mem _ hq1) hqc
        · have hl := process_transitions_ok_lookup hm hpt q hq2
          rw [hqc, hbad] at hl
          injection hl with h2
          exact h2.symm
      · intro hmem
        rcases mem_setAdd.mp hmem with hv | hc
        · exact hnv hv
        · exact hcls hc.symm

/-! ## Claim theorems -/

/-- Claim C1: for every bound host and every installed member name, if the currently
held state instance does not implement that member, then accessing or calling it
raises `StateError` (never a no-op, never a default value), and the error message
names the host type, the concrete current-state type and the unsupported member, in
both binder iterations (descriptor `__get__` and generated wrapper body). -/
theorem unsupported_member_raises_state_error
    (d : StateMemberDescriptor) (inst : HostInstance) (owner : Cls)
    (st : StateInstance) (implemented_members : List String)
    (member_set_of : Cls → List String) (h : Host)
    (hslot : dictGet inst.state_slots d.state_attr_name = some st)
    (himpl : dictGet d.implementations st.cls = some implemented_members)
    (hno : d.attr_name ∉ implemented_members)
    (hno' : d.attr_name ∉ member_set_of h._state.cls) :
    StateMemberDescriptor.get d inst owner
        = .error (.stateError ("Member " ++ d.attr_name ++ " is not available on class "
          ++ owner ++ " in state " ++ st.cls ++ "."))
      ∧ wrapped_member_get d.attr_name member_set_of h
        = .error (.stateError (h.cls ++ " object in state " ++ h._state.cls
          ++ " does not support calling " ++ d.attr_name ++ ".")) := by
  constructor
  · simp only [StateMemberDescriptor.get, hslot, himpl]
    simp [hno]
  · rw [wrapped_member_get]
    simp [hno']

/-- Claim C1 witness: a concrete host in state `OnDispatch` asked for `stock_location`. -/
theorem unsupported_member_raises_state_error_witness :
    StateMemberDescriptor.get ⟨"_state", "stock_location", [("OnDispatch", ["ship"])]⟩
        ⟨"Article", [("_state", ⟨"OnDispatch", []⟩)]⟩ "Article"
        = .error (.stateError ("Member " ++ "stock_location"
          ++ " is not available on class " ++ "Article" ++ " in state "
          ++ "OnDispatch" ++ "."))
      ∧ wrapped_member_get "stock_location"
          (fun c => if c = "OnDispatch" then ["ship"] else [])
          ⟨"Article", [], ⟨"OnDispatch", []⟩⟩
        = .error (.stateError ("Article" ++ " object in state " ++ "OnDispatch"
          ++ " does not support calling " ++ "stock_location" ++ ".")) :=
  unsupported_member_raises_state_error
    ⟨"_state", "stock_location", [("OnDispatch", ["ship"])]⟩
    ⟨"Article", [("_state", ⟨"OnDispatch", []⟩)]⟩ "Article" ⟨"OnDispatch", []⟩
    ["ship"] (fun c => if c = "OnDispatch" then ["ship"] else [])
    ⟨"Article", [], ⟨"OnDispatch", []⟩⟩
    (by decide) (by decide) (by decide) (by decide)

/-- Claim C2 (amended): after a successful transition call the held state instance is
replaced, in a single assignment, by exactly the instance the transition callable
returned, and the call returns `None` to the caller; the current state therefore
reports the transition's validated destination whenever the callable returns an
instance of that destination - the wrappers make no runtime check of this. -/
theorem transition_call_replaces_state_and_returns_none
    (member_name : String) (member_set_of : Cls → List String)
    (fn : StateInstance → List Val → StateInstance) (self : Host) (args : List Val)
    (t : RTransition) (state_attr_name : String) (tr : List Val → StateInstance)
    (inst : HostInstance)
    (hsupp : member_name ∈ member_set_of self._state.cls) :
    wrapped_transition_call member_name member_set_of fn self args
        = .ok ({ self with _state := fn self._state args }, none)
      ∧ ((fn self._state args).cls = t.transitions_to →
          ({ self with _state := fn self._state args } : Host).state.cls
            = t.transitions_to)
      ∧ StateTransitionWrapper.call state_attr_name tr inst args
        = ({ inst with
            state_slots := dictSet inst.state_slots state_attr_name (tr args) },
          none) := by
  refine ⟨?_, ?_, rfl⟩
  · rw [wrapped_transition_call]
    simp [hsupp]
  · intro hdest
    simpa [Host.state] using hdest

/-- Claim C2 witness: a concrete supported transition call. -/
theorem transition_call_replaces_state_and_returns_none_witness :
    wrapped_transition_call "order" (fun c => if c = "Demanded" then ["order"] else [])
        (fun _ _ => ⟨"Ordered", [("cost", 3)]⟩) ⟨"Article", [], ⟨"Demanded", []⟩⟩ [3]
        = .ok (⟨"Article", [], ⟨"Ordered", [("cost", 3)]⟩⟩, none)
      ∧ (StateInstance.cls ⟨"Ordered", [("cost", 3)]⟩ = "Ordered" →
          (Host.state ⟨"Article", [], ⟨"Ordered", [("cost", 3)]⟩⟩).cls = "Ordered") := by
  have happ := transition_call_replaces_state_and_returns_none "order"
    (fun c => if c = "Demanded" then ["order"] else [])
    (fun _ _ => ⟨"Ordered", [("cost", 3)]⟩) ⟨"Article", [], ⟨"Demanded", []⟩⟩ [3]
    ⟨1, "Ordered", some "Ordered"⟩ "_state" (fun _ => ⟨"Ordered", []⟩)
    ⟨"Article", []⟩ (by decide)
  exact ⟨happ.1, fun _ => happ.2.1 rfl⟩

/-- Claim C2 counterexample: a transition that passes the resolver's
return-annotation validation with validated destination `B`, but whose callable
returns a `C` instance, leaves the host in state `C` - the current state does not
report the validated destination. -/
theorem transition_destination_not_enforced :
    check_transition_ret_anno ⟨7, "B", some "B"⟩ = .ok ()
      ∧ wrapped_transition_call "go" (fun c => if c = "A" then ["go"] else [])
          (fun _ _ => ⟨"C", []⟩) ⟨"H", [], ⟨"A", []⟩⟩ []
        = .ok (⟨"H", [], ⟨"C", []⟩⟩, none)
      ∧ (Host.state ⟨"H", [], ⟨"C", []⟩⟩).cls ≠ "B" := by
  refine ⟨rfl, ?_, by decide⟩
  rw [wrapped_transition_call]
  simp

/-- Claim C3: a freshly constructed host instance holds an instance of the machine
definition's initial state, constructed with no arguments, and the `state` accessor
reports exactly that initial state instance. -/
theorem fresh_host_holds_initial_state
    (state_definition : StateDefinition)
    (init_fields : Cls → List Val → List (String × Val)) (host_cls : Cls)
    (current_init : List Val → List (String × Val)) (args : List Val) :
    (wrapped_state_init state_definition init_fields host_cls current_init args).state
        = pyConstruct init_fields state_definition.initial.cls []
      ∧ (wrapped_state_init state_definition init_fields host_cls current_init
          args).state.cls = state_definition.initial.cls :=
  ⟨rfl, rfl⟩

/-- Claim C4 (amended): `validate_initial` raises `StateConfigError` precisely when
no declaration is marked initial, several are, the unique initial declaration is
abstract, or - the case the original claim omits - the unique initial declaration has
a custom `__init__` taking parameters besides `self`; in every remaining case it
returns the unique non-abstract initial declaration. -/
theorem validate_initial_characterization (state_items : List StateItem) :
    ((∃ msg, validate_initial state_items = .error (.configError msg)) ↔
      ((state_items.filter (fun s => s.initial)).length = 0
        ∨ 1 < (state_items.filter (fun s => s.initial)).length
        ∨ (∃ i, state_items.filter (fun s => s.initial) = [i]
            ∧ (i.abstract = true
              ∨ (i.init_is_object = false ∧ 1 < i.init_param_count)))))
    ∧ (∀ i, validate_initial state_items = .ok i →
        state_items.filter (fun s => s.initial) = [i] ∧ i.abstract = false) := by
  cases hl : state_items.filter (fun s => s.initial) with
  | nil =>
    have he : validate_initial state_items
        = .error (.configError "There must be exactly one initial state, but none was declared.") := by
      rw [validate_initial, hl]
    refine ⟨⟨fun _ => Or.inl rfl, fun _ => ⟨_, he⟩⟩, fun i hi => ?_⟩
    rw [he] at hi
    exact absurd hi (by simp)
  | cons a rest =>
    cases rest with
    | cons b rest' =>
      have he : validate_initial state_items
          = .error (.configError "There must be exactly one initial state, but multiple were declared.") := by
        rw [validate_initial, hl]
        simp
      refine ⟨⟨fun _ => Or.inr (Or.inl ?_), fun _ => ⟨_, he⟩⟩, fun i hi => ?_⟩
      · simp only [List.length_cons]
        omega
      · rw [he] at hi
        exact absurd hi (by simp)
    | nil =>
      by_cases ha : a.abstract
      · have he : validate_initial state_items
            = .error (.configError "Declared initial state must not be abstract.") := by
          rw [validate_initial, hl]
          simp [ha]
        refine ⟨⟨fun _ => Or.inr (Or.inr ⟨a, rfl, Or.inl (by simpa using ha)⟩),
          fun _ => ⟨_, he⟩⟩, fun i hi => ?_⟩
        rw [he] at hi
        exact absurd hi (by simp)
      · by_cases hinit : a.init_is_object = false ∧ 1 < a.init_param_count
        · have he : validate_initial state_items
              = .error (.configError "init of initial state cannot have additional arguments apart from self.") := by
            rw [validate_initial, hl]
            simp [ha, hinit]
          refine ⟨⟨fun _ => Or.inr (Or.inr ⟨a, rfl, Or.inr hinit⟩),
            fun _ => ⟨_, he⟩⟩, fun i hi => ?_⟩
          rw [he] at hi
          exact absurd hi (by simp)
        · have hok : validate_initial state_items = .ok a := by
            rw [validate_initial, hl]
            simp [ha, hinit]
          constructor
          · constructor
            · rintro ⟨msg, hmsg⟩
              rw [hok] at hmsg
              exact absurd hmsg (by simp)
            · intro hdisj
              exfalso
              rcases hdisj with h0 | h1 | ⟨i, hi, hcond⟩
              · simp at h0
              · simp at h1
              · simp at hi
                subst hi
                rcases hcond with hc | hc
                · exact ha (by simpa using hc)
                · exact hinit hc
          · intro i hi
            rw [hok] at hi
            simp at hi
            subst hi
            exact ⟨rfl, by simpa using ha⟩

/-- Claim C4 witness: on a list with no initial declaration the characterization
yields the no-initial `StateConfigError`. -/
theorem validate_initial_characterization_witness :
    ∃ msg, validate_initial [] = .error (.configError msg) :=
  (validate_initial_characterization []).1.mpr (Or.inl (by decide))

/-- Claim C4 counterexample: a unique, non-abstract initial declaration whose
`__init__` takes a parameter besides `self` is not selected - `validate_initial`
raises `StateConfigError` instead, contradicting the claim's `otherwise the unique
non-abstract initial declaration is selected`. -/
theorem validate_initial_rejects_initial_with_init_args :
    (StateItem.initial ⟨"A", true, false, ["A", "object"], false, 2, [], [], [], [],
          .matched⟩ = true
      ∧ StateItem.abstract ⟨"A", true, false, ["A", "object"], false, 2, [], [], [],
          [], .matched⟩ = false
      ∧ [(⟨"A", true, false, ["A", "object"], false, 2, [], [], [], [],
          .matched⟩ : StateItem)].filter (fun s => s.initial)
        = [⟨"A", true, false, ["A", "object"], false, 2, [], [], [], [], .matched⟩])
    ∧ validate_initial [⟨"A", true, false, ["A", "object"], false, 2, [], [], [], [],
        .matched⟩]
      = .error (.configError "init of initial state cannot have additional arguments apart from self.") := by
  decide

/-- Claim C5 (amended): every machine containing a transition whose declared
destination does not resolve to a concrete declaration in the merged set makes
resolution fail at resolve time, not at the first transition call, and never with
`StateConfigError`: when the breadth-first traversal reaches the declaring state,
the bare `state_items_by_cls[...]` lookup raises an uncaught `KeyError`; when the
declaring state is itself never visited, resolution instead fails through the
unreachable-states branch, whose message construction raises `AttributeError` (the
C6 slip).  The two hypotheses `hin` and `hnd` hold for every definition the
resolver builds: `resolve` inserts `initial` at the front of `concretes`, and the
matched items are keyed by distinct classes. -/
theorem missing_destination_fails_at_resolve_time
    (state_definition : StateDefinition)
    (hin : state_definition.initial ∈ state_definition.concretes)
    (hnd : (state_definition.concretes.map StateItem.cls).Nodup)
    (hmiss : ∃ c ∈ state_definition.concretes, ∃ p ∈ c.transitions,
      dictGet (state_items_by_cls_of state_definition)
        (Prod.snd p).transitions_to = none) :
    ((∃ k, validate_state_transition_map state_definition = .error (.keyError k)
        ∧ dictGet (state_items_by_cls_of state_definition) k = none)
      ∨ validate_state_transition_map state_definition
        = .error (.attributeError "cls"))
    ∧ ∀ msg, validate_state_transition_map state_definition
      ≠ .error (.configError msg) := by
  obtain ⟨bad, hbadmem, hbadmiss⟩ := hmiss
  have hbad : dictGet (state_items_by_cls_of state_definition) bad.cls = some bad :=
    state_items_lookup_self hnd hbadmem
  cases hb : bfs_loop (state_items_by_cls_of state_definition)
      (state_items_by_cls_of_consistent state_definition)
      [state_definition.initial] [] with
  | error e =>
    obtain ⟨k, hk, hkn⟩ := bfs_loop_error_shape hb
    subst hk
    have hv : validate_state_transition_map state_definition
        = .error (.keyError k) := by
      unfold validate_state_transition_map
      rw [hb]
    exact ⟨Or.inl ⟨k, hv, hkn⟩,
      fun msg h => by rw [hv] at h; exact absurd h (by simp)⟩
  | ok final =>
    have hnotin : bad.cls ∉ final := by
      refine bfs_loop_ok_bad_unvisited hbad hbadmiss hb ?_ (by simp)
      intro q hqm hqc
      rcases List.mem_cons.mp hqm with rfl | h0
      · exact nodup_cls_inj hnd hin hbadmem hqc
      · simp at h0
    have hkey : bad.cls ∈ (state_items_by_cls_of state_definition).map Prod.fst := by
      rw [state_items_by_cls_of_eq hnd, List.map_map]
      exact List.mem_map_of_mem _ hbadmem
    have hfilter : ((state_items_by_cls_of state_definition).map Prod.fst).filter
        (fun c => c ∉ final) ≠ [] := by
      intro hc
      have := List.filter_eq_nil_iff.mp hc _ hkey
      simp [hnotin] at this
    have hv : validate_state_transition_map state_definition
        = .error (.attributeError "cls") := by
      unfold validate_state_transition_map
      rw [hb]
      simp only []
      rw [if_neg hfilter]
    exact ⟨Or.inr hv, fun msg h => by rw [hv] at h; exact absurd h (by simp)⟩

/-- Claim C5 witness: a one-state machine whose initial state declares a transition
to the unregistered (or abstract, hence non-concrete) destination `B`; the traversal
visits the declaring state, so resolution here fails with the `KeyError`. -/
theorem missing_destination_fails_at_resolve_time_witness :
    ((∃ k, validate_state_transition_map
        ⟨⟨"A", true, false, ["A", "object"], true, 1, [], [], [],
          [("go", ⟨1, "B", none⟩)], .matched⟩,
        [⟨"A", true, false, ["A", "object"], true, 1, [], [], [],
          [("go", ⟨1, "B", none⟩)], .matched⟩]⟩
        = .error (.keyError k)
        ∧ dictGet (state_items_by_cls_of
          ⟨⟨"A", true, false, ["A", "object"], true, 1, [], [], [],
            [("go", ⟨1, "B", none⟩)], .matched⟩,
          [⟨"A", true, false, ["A", "object"], true, 1, [], [], [],
            [("go", ⟨1, "B", none⟩)], .matched⟩]⟩) k = none)
      ∨ validate_state_transition_map
        ⟨⟨"A", true, false, ["A", "object"], true, 1, [], [], [],
          [("go", ⟨1, "B", none⟩)], .matched⟩,
        [⟨"A", true, false, ["A", "object"], true, 1, [], [], [],
          [("go", ⟨1, "B", none⟩)], .matched⟩]⟩
        = .error (.attributeError "cls"))
    ∧ ∀ msg, validate_state_transition_map
        ⟨⟨"A", true, false, ["A", "object"], true, 1, [], [], [],
          [("go", ⟨1, "B", none⟩)], .matched⟩,
        [⟨"A", true, false, ["A", "object"], true, 1, [], [], [],
          [("go", ⟨1, "B", none⟩)], .matched⟩]⟩
      ≠ .error (.configError msg) :=
  missing_destination_fails_at_resolve_time _ (by decide) (by decide) (by decide)

/-- The one-state machine used as the C5 counterexample: the initial concrete state
`A` declares a transition to `B`, and `B` is not in the concrete set (never
registered, or registered abstract). -/
def c5_machine : StateDefinition :=
  ⟨⟨"A", true, false, ["A", "object"], true, 1, [], [], [],
    [("order", ⟨2, "B", none⟩)], .matched⟩,
  [⟨"A", true, false, ["A", "object"], true, 1, [], [], [],
    [("order", ⟨2, "B", none⟩)], .matched⟩]⟩

/-- Claim C5 counterexample: on `c5_machine` resolution raises `KeyError "B"` and in
particular no `StateConfigError`, contradicting the claimed error type. -/
theorem missing_destination_raises_key_error_not_config_error :
    validate_state_transition_map c5_machine = .error (.keyError "B")
      ∧ ∀ msg, validate_state_transition_map c5_machine
        ≠ .error (.configError msg) := by
  have hp : process_transitions (state_items_by_cls_of c5_machine)
      (setAdd [] c5_machine.initial.cls) c5_machine.initial.transitions
      = .error (.keyError "B") := by decide
  have hb : validate_state_transition_map c5_machine = .error (.keyError "B") := by
    unfold validate_state_transition_map
    rw [bfs_loop_cons_error hp]
  exact ⟨hb, fun msg h => by rw [hb] at h; exact absurd h (by simp)⟩

/-- The machine used for the C6 failing input: initial concrete state `A` with no
transitions, plus a second concrete state `B`, which the traversal therefore never
visits. -/
def c6_machine : StateDefinition :=
  ⟨⟨"A", true, false, ["A", "object"], true, 1, [], [], [], [], .matched⟩,
  [⟨"A", true, false, ["A", "object"], true, 1, [], [], [], [], .matched⟩,
    ⟨"B", false, false, ["B", "object"], true, 1, [], [], [], [], .matched⟩]⟩

/-- The same machine with a transition `A to B` added, making every concrete state
reachable. -/
def c6_reachable_machine : StateDefinition :=
  ⟨⟨"A", true, false, ["A", "object"], true, 1, [], [], [],
    [("t", ⟨1, "B", none⟩)], .matched⟩,
  [⟨"A", true, false, ["A", "object"], true, 1, [], [], [],
      [("t", ⟨1, "B", none⟩)], .matched⟩,
    ⟨"B", false, false, ["B", "object"], true, 1, [], [], [], [], .matched⟩]⟩

/-- Claim C6: the resolver does perform the breadth-first traversal from the initial
declaration and complains exactly when some concrete declaration is not visited - but
on the failing input the raised error is an `AttributeError` from evaluating
`st.cls` on the class objects inside the error f-string, not the claimed
`StateConfigError` naming the unreachable states; on the fully reachable variant
validation passes. -/
theorem unreachable_state_raises_attribute_error :
    validate_state_transition_map c6_machine = .error (.attributeError "cls")
      ∧ (∀ msg, validate_state_transition_map c6_machine
        ≠ .error (.configError msg))
      ∧ validate_state_transition_map c6_reachable_machine = .ok () := by
  have h1 : process_transitions (state_items_by_cls_of c6_machine)
      (setAdd [] c6_machine.initial.cls) c6_machine.initial.transitions
      = .ok [] := by decide
  have hv : validate_state_transition_map c6_machine
      = .error (.attributeError "cls") := by
    unfold validate_state_transition_map
    rw [bfs_loop_cons_ok h1, List.nil_append, bfs_loop_nil]
    decide
  refine ⟨hv, fun msg h => by rw [hv] at h; exact absurd h (by simp), ?_⟩
  have h2 : process_transitions (state_items_by_cls_of c6_reachable_machine)
      (setAdd [] c6_reachable_machine.initial.cls)
      c6_reachable_machine.initial.transitions
      = .ok [⟨"B", false, false, ["B", "object"], true, 1, [], [], [], [],
        .matched⟩] := by decide
  have h3 : process_transitions (state_items_by_cls_of c6_reachable_machine)
      (setAdd (setAdd [] c6_reachable_machine.initial.cls) "B")
      (StateItem.transitions ⟨"B", false, false, ["B", "object"], true, 1, [], [],
        [], [], .matched⟩)
      = .ok [] := by decide
  unfold validate_state_transition_map
  rw [bfs_loop_cons_ok h2, List.nil_append, bfs_loop_cons_ok h3, List.nil_append,
    bfs_loop_nil]
  decide

/-- A registered base declaration defining method `m` (function identity 1). -/
def c7_base : StateItem :=
  ⟨"B", false, false, ["B", "object"], true, 1, [], [], [("m", 1)], [], .matched⟩

/-- A registered declaration derived from `c7_base` defining no members itself. -/
def c7_derived : StateItem :=
  ⟨"D", true, false, ["D", "B", "object"], true, 1, [], [], [], [], .matched⟩

/-- Claim C7: when the base's item precedes the derived's in the matched list,
`resolve_item_inheritance` marks the base class resolved while processing the base's
own item, and the derived item's pass then skips the base entirely - the derived
declaration ends up without the base's method `m`, contradicting the claim; with the
derived item first the merge works, and `inherit_from_state` itself does give the
derived implementation precedence on a name collision. -/
theorem inheritance_lost_when_base_item_first :
    ((resolve_item_inheritance [c7_base, c7_derived]).map
        (fun s => (s.cls, s.methods)) = [("B", [("m", 1)]), ("D", [])])
      ∧ ((resolve_item_inheritance [c7_derived, c7_base]).map
        (fun s => (s.cls, s.methods)) = [("D", [("m", 1)]), ("B", [("m", 1)])])
      ∧ (inherit_from_state
          ⟨"D", true, false, ["D", "B", "object"], true, 1, [], [], [("m", 2)], [],
            .matched⟩ c7_base).methods = [("m", 2)] := by
  decide

/-- The registry used as the C8 counterexample: identity `("m", "A")` is already
registered. -/
def c8_registry : StateRegistry :=
  { is_resolved := false, member_registry := [],
    registry := [(("m", "A"), ⟨"A", false, false, []⟩)] }

/-- Claim C8 counterexample: registering the already-registered identity
`("m", "A")` again does not raise `StateConfigError` - the call succeeds and
silently replaces the previous record. -/
theorem register_duplicate_identity_does_not_fail :
    dictGet c8_registry.registry ("m", "A") = some ⟨"A", false, false, []⟩
      ∧ (c8_registry.register "m" "A" true false ["x"]).1 = .ok ()
      ∧ dictGet (c8_registry.register "m" "A" true false ["x"]).2.registry ("m", "A")
        = some ⟨"A", true, false, ["x"]⟩ := by
  decide

/-- Claim C8 (amended): registering a class-level state fact on an unresolved
registry always succeeds and stores the new record under the identity, silently
overwriting any record already registered there (no duplicate check is made). -/
theorem register_overwrites_existing_identity (self : StateRegistry)
    (module cls_name : String) (initial abstract : Bool) (attributes : List String)
    (h : self.is_resolved = false) :
    (self.register module cls_name initial abstract attributes).1 = .ok ()
      ∧ dictGet (self.register module cls_name initial abstract attributes).2.registry
          (module, cls_name) = some ⟨cls_name, initial, abstract, attributes⟩ := by
  rw [StateRegistry.register]
  simp only [check_is_unresolved, h]
  exact ⟨rfl, dictGet_dictSet_self _ _ _⟩

/-- Claim C8 witness: re-registering the already-present identity of `c8_registry`
succeeds and overwrites. -/
theorem register_overwrites_existing_identity_witness :
    (c8_registry.register "m" "A" false true []).1 = .ok ()
      ∧ dictGet (c8_registry.register "m" "A" false true []).2.registry ("m", "A")
        = some ⟨"A", false, true, []⟩ :=
  register_overwrites_existing_identity c8_registry "m" "A" false true [] (by decide)

/-- Claim C9: `validate_all_members_implemented` raises `StateConfigError` exactly
when some collected member has zero implementations across the state classes of the
machine. -/
theorem unimplemented_member_raises_config_error
    (definition_members : List DefStateMember) :
    (∃ member ∈ definition_members, member.implementations = []) ↔
      validate_all_members_implemented definition_members
        = .error (.configError "The following members are not implemented in any of the definition bases. Either delete or implement them.") := by
  constructor
  · rintro ⟨member, hmem, hnone⟩
    have hne : definition_members.filter (fun member => member.implementations = [])
        ≠ [] := by
      intro hc
      have := List.filter_eq_nil_iff.mp hc member hmem
      simp [hnone] at this
    simp only [validate_all_members_implemented]
    rw [if_pos hne]
  · intro hval
    by_contra hne
    have hf : definition_members.filter (fun member => member.implementations = [])
        = [] := by
      rw [List.filter_eq_nil_iff]
      intro a ha
      simp only [decide_eq_true_eq]
      intro hc
      exact hne ⟨a, ha, hc⟩
    simp only [validate_all_members_implemented] at hval
    rw [if_neg (by simp [hf])] at hval
    exact absurd hval (by simp)

/-- Claim C10: once a `StateRegistry` is resolved, `register`, `method`,
`property_` and `transition` all raise `StateConfigError` via the unresolved check,
`add_state` with the same registry raises `StateConfigError` as well, and every such
rejected call leaves the registry's recorded contents unchanged. -/
theorem resolved_registry_rejects_all_operations (self : StateRegistry)
    (module cls_name func_name : String) (func : Nat) (to_cls : Cls)
    (initial abstract : Bool) (attributes : List String)
    (h : self.is_resolved = true) :
    self.register module cls_name initial abstract attributes
        = (.error (.configError "StateRegistry object was resolved and cannot be used anymore to register states or add them."), self)
      ∧ self.method module cls_name func_name func
        = (.error (.configError "StateRegistry object was resolved and cannot be used anymore to register states or add them."), self)
      ∧ self.property_ module cls_name func_name func
        = (.error (.configError "StateRegistry object was resolved and cannot be used anymore to register states or add them."), self)
      ∧ self.transition module cls_name func_name func to_cls
        = (.error (.configError "StateRegistry object was resolved and cannot be used anymore to register states or add them."), self)
      ∧ add_state self
        = (.error (.configError "Given StateRegistry is already resolved."), self) := by
  refine ⟨?_, ?_, ?_, ?_, ?_⟩
  · rw [StateRegistry.register]
    simp [check_is_unresolved, h]
  · rw [StateRegistry.method]
    simp [check_is_unresolved, h]
  · rw [StateRegistry.property_]
    simp [check_is_unresolved, h]
  · rw [StateRegistry.transition]
    simp [check_is_unresolved, h]
  · rw [add_state]
    simp [StateRegistry.resolved, h]

/-- Claim C10 witness: a concrete resolved registry rejects every operation and is
left unchanged. -/
theorem resolved_registry_rejects_all_operations_witness :
    StateRegistry.register ⟨true, [], []⟩ "m" "A" false false []
        = (.error (.configError "StateRegistry object was resolved and cannot be used anymore to register states or add them."), ⟨true, [], []⟩)
      ∧ StateRegistry.method ⟨true, [], []⟩ "m" "A" "f" 1
        = (.error (.configError "StateRegistry object was resolved and cannot be used anymore to register states or add them."), ⟨true, [], []⟩)
      ∧ StateRegistry.property_ ⟨true, [], []⟩ "m" "A" "p" 2
        = (.error (.configError "StateRegistry object was resolved and cannot be used anymore to register states or add them."), ⟨true, [], []⟩)
      ∧ StateRegistry.transition ⟨true, [], []⟩ "m" "A" "t" 3 "B"
        = (.error (.configError "StateRegistry object was resolved and cannot be used anymore to register states or add them."), ⟨true, [], []⟩)
      ∧ add_state ⟨true, [], []⟩
        = (.error (.configError "Given StateRegistry is already resolved."), ⟨true, [], []⟩) :=
  resolved_registry_rejects_all_operations ⟨true, [], []⟩ "m" "A" "f" 1 "B" false
    false [] rfl
